import Mathlib

/-!
Shallow embedding of `ai_news_fetcher.py` (an RSS ingestion batch job):
feed traversal, per-entry persistence with URL deduplication, and the
HTML-to-text content extraction heuristic.  External collaborators
(the HTTP client, the feed parsing library, the database client) are
modelled as oracles supplied in an environment record; the parsed HTML
document is modelled as a small DOM tree with the BeautifulSoup
operations the source uses implemented over it.
-/

set_option maxRecDepth 100000

namespace AiNews

/-- `str.strip()` on the character list of a string: drop unicode
whitespace from both ends. -/
def stripChars (l : List Char) : List Char :=
  ((l.dropWhile Char.isWhitespace).reverse.dropWhile Char.isWhitespace).reverse

/-- Python `str.strip()`. -/
def pyStrip (s : String) : String :=
  String.mk (stripChars s.data)

/-- Python `len(s)`: the number of characters. -/
def pyLen (s : String) : Nat :=
  s.data.length

/-- Python `s[:n]`: the first `n` characters. -/
def pyTake (s : String) (n : Nat) : String :=
  String.mk (s.data.take n)

/-- Whether `pat` is a prefix of `hay`. -/
def isPrefixChars (pat hay : List Char) : Bool :=
  match pat, hay with
  | [], _ => true
  | _ :: _, [] => false
  | p :: ps, h :: hs => p == h && isPrefixChars ps hs

/-- Whether `pat` occurs as a contiguous substring of `hay`. -/
def containsChars (pat : List Char) : List Char → Bool
  | [] => isPrefixChars pat []
  | h :: hs => isPrefixChars pat (h :: hs) || containsChars pat hs

/-- Python `pat in hay` on strings. -/
def hasSubstring (hay pat : String) : Bool :=
  containsChars pat.data hay.data

/-- `separator.join(pieces)` for separator `"\n"`. -/
def joinLines : List String → String
  | [] => ""
  | [s] => s
  | s :: rest => s ++ "\n" ++ joinLines rest

/-- A parsed HTML node: either a text node or an element with a tag
name, the raw `class` attribute string, and children. -/
inductive Node where
  | text (s : String)
  | elem (tag : String) (classAttr : String) (children : List Node)

/-- Tags removed before text extraction, mirroring
`for tag in soup(["script", "style", "noscript"]): tag.decompose()`. -/
def strippedTags : List String := ["script", "style", "noscript"]

mutual
/-- Remove `script`/`style`/`noscript` subtrees below a node;
`none` when the node itself carries one of those tags. -/
def decomposeNode : Node → Option Node
  | .text s => some (.text s)
  | .elem t c cs =>
    if t ∈ strippedTags then none else some (.elem t c (decomposeList cs))

/-- Remove `script`/`style`/`noscript` subtrees from a node list. -/
def decomposeList : List Node → List Node
  | [] => []
  | n :: ns =>
    match decomposeNode n with
    | some m => m :: decomposeList ns
    | none => decomposeList ns
end

/-- `for tag in soup(["script", "style", "noscript"]): tag.decompose()`
applied below the document root. -/
def decompose : Node → Node
  | .text s => .text s
  | .elem t c cs => .elem t c (decomposeList cs)

mutual
/-- All text-node strings of a node, in document order. -/
def textPieces : Node → List String
  | .text s => [s]
  | .elem _ _ cs => textPiecesList cs

/-- All text-node strings of a node list, in document order. -/
def textPiecesList : List Node → List String
  | [] => []
  | n :: ns => textPieces n ++ textPiecesList ns
end

/-- `get_text(separator="\n", strip=True)`: strip every text node,
drop the ones that become empty, and join with newlines. -/
def getText (n : Node) : String :=
  joinLines (((textPieces n).map pyStrip).filter (fun s => s ≠ ""))

mutual
/-- `soup.find(tag)`: first element with the tag, in document order
(pre-order), or none. -/
def findTag : String → Node → Option Node
  | _, .text _ => none
  | tag, .elem t c cs =>
    if t = tag then some (.elem t c cs) else findTagList tag cs

/-- `find` over a list of sibling subtrees, in order. -/
def findTagList : String → List Node → Option Node
  | _, [] => none
  | tag, n :: ns =>
    match findTag tag n with
    | some r => some r
    | none => findTagList tag ns
end

/-- Whether an element's `class` attribute makes it match the CSS
selector `[class*='article'], [class*='content']`. -/
def classMatches (classAttr : String) : Bool :=
  hasSubstring classAttr "article" || hasSubstring classAttr "content"

mutual
/-- `soup.select("[class*='article'], [class*='content']")`: all
matching elements in document order. -/
def selectClass : Node → List Node
  | .text _ => []
  | .elem t c cs =>
    (if classMatches c then [Node.elem t c cs] else []) ++ selectClassList cs

/-- `select` over a list of sibling subtrees, in order. -/
def selectClassList : List Node → List Node
  | [] => []
  | n :: ns => selectClass n ++ selectClassList ns
end

/-- The candidate list built by `fetch_article_content`: the first
`<article>` element if any, then the first `<main>` element if any,
then every class-matched element in document order. -/
def candidates (soup : Node) : List Node :=
  ((findTag "article" soup).toList) ++ ((findTag "main" soup).toList) ++ selectClass soup

/-- The per-candidate acceptance test of the loop body:
`if text and len(text) > 200`. -/
def acceptsCandidate (c : Node) : Bool :=
  let text := getText c
  (text ≠ "") && (pyLen text > 200)

/-- Outcome of `requests.get(url)` followed by `resp.raise_for_status()`:
either a transport-level failure (timeout, connection error, non-2xx
status — anything the `except` clause catches) or the parsed document. -/
inductive FetchOutcome where
  | failure (reason : String)
  | success (doc : Node)

/-- `fetch_article_content(url)` given the network's response for that
URL: on transport failure return `none`; otherwise strip non-content
tags, try the candidates in order accepting the first whose text is
nonempty and longer than 200 characters, and fall back to the text of
`soup.body or soup`, returning `none` if that text is empty. -/
def fetch_article_content : FetchOutcome → Option String
  | .failure _ => none
  | .success doc =>
    let soup := decompose doc
    match (candidates soup).find? acceptsCandidate with
    | some c => some (getText c)
    | none =>
      let body := (findTag "body" soup).getD soup
      let text := getText body
      if text = "" then none else some text

/-- The first six components of a `time.struct_time` as produced by
feedparser for `published_parsed` / `updated_parsed`. -/
structure TimeStruct where
  year : Nat
  month : Nat
  day : Nat
  hour : Nat
  minute : Nat
  second : Nat
deriving Repr, DecidableEq

/-- `datetime(*struct[:6], tzinfo=timezone.utc)`: the six components
taken as a UTC instant. -/
structure UTCDateTime where
  year : Nat
  month : Nat
  day : Nat
  hour : Nat
  minute : Nat
  second : Nat
deriving Repr, DecidableEq

/-- Zero-pad a number to two digits, as `datetime.isoformat` does. -/
def pad2 (n : Nat) : String :=
  if n < 10 then "0" ++ toString n else toString n

/-- Zero-pad a year to four digits, as `datetime.isoformat` does. -/
def pad4 (n : Nat) : String :=
  if n < 10 then "000" ++ toString n
  else if n < 100 then "00" ++ toString n
  else if n < 1000 then "0" ++ toString n
  else toString n

/-- `published_dt.isoformat()` for a UTC datetime with no
microseconds: `YYYY-MM-DDTHH:MM:SS+00:00`. -/
def isoformat (d : UTCDateTime) : String :=
  pad4 d.year ++ "-" ++ pad2 d.month ++ "-" ++ pad2 d.day ++ "T" ++
    pad2 d.hour ++ ":" ++ pad2 d.minute ++ ":" ++ pad2 d.second ++ "+00:00"

/-- One feed entry as the code reads it through `getattr` with a
`None` default: every field may be missing.  `none` covers both an
absent attribute and an attribute set to Python `None`. -/
structure Entry where
  link : Option String
  title : Option String
  summary : Option String
  published_parsed : Option TimeStruct
  updated_parsed : Option TimeStruct

/-- `parse_published(entry)`: take `published_parsed or updated_parsed`
(a present `struct_time` is always truthy, so `or` falls through
exactly when the first is absent) and build a UTC datetime from its
first six components; `None` when neither is available. -/
def parse_published (e : Entry) : Option UTCDateTime :=
  match e.published_parsed.orElse (fun _ => e.updated_parsed) with
  | some s => some ⟨s.year, s.month, s.day, s.hour, s.minute, s.second⟩
  | none => none

/-- One row of the `articles` table, with the fields `save_entry`
inserts. -/
structure Row where
  source : String
  url : String
  title : String
  summary : Option String
  content_raw : Option String
  content_text : Option String
  published_at : Option String
deriving Repr, DecidableEq

/-- The `articles` table. -/
structure Store where
  rows : List Row
deriving Repr, DecidableEq

/-- The existence check
`supabase.table("articles").select("id").eq("url", url).limit(1).execute()`:
whether some row already has this URL. -/
def existsByUrl (st : Store) (url : String) : Bool :=
  st.rows.any (fun r => r.url = url)

/-- Python `a or b` on optional strings: `None` and the empty string
are falsy, so they fall through to `b`. -/
def pyOrStr (a b : Option String) : Option String :=
  match a with
  | none => b
  | some s => if s = "" then b else some s

/-- The external collaborators of `save_entry`: the network's response
for each article URL, and whether the store's existence check or
insert raises (with which message) for each URL.  A `some msg` oracle
value models the corresponding supabase call raising. -/
structure Env where
  net : String → FetchOutcome
  checkRaises : String → Option String
  insertRaises : String → Option String

/-- What one `save_entry` call did: the resulting table, the printed
lines, and the effect traces — which URLs were existence-checked,
which were fetched by the Content Extractor, and which were inserted,
in order. -/
structure SaveResult where
  store : Store
  log : List String
  checked : List String
  fetched : List String
  inserted : List String
deriving Repr, DecidableEq

instance {ε α : Type} [DecidableEq ε] [DecidableEq α] : DecidableEq (Except ε α) := fun a b =>
  match a, b with
  | .ok x, .ok y =>
    if h : x = y then .isTrue (by rw [h]) else .isFalse (fun hh => by cases hh; exact h rfl)
  | .error x, .error y =>
    if h : x = y then .isTrue (by rw [h]) else .isFalse (fun hh => by cases hh; exact h rfl)
  | .ok _, .error _ => .isFalse (fun hh => by cases hh)
  | .error _, .ok _ => .isFalse (fun hh => by cases hh)

/-- `save_entry(feed_source, entry)`: skip (with a diagnostic) when
`link` or `title` is missing or empty; parse the timestamp; run the
duplicate-URL existence check and return silently when the URL is
already stored; only then fetch the article body; insert a row whose
`content_raw` is the feed summary and whose `content_text` is the
extracted body text falling back to the summary.  An exception from
the store's check or insert propagates as `Except.error`. -/
def save_entry (env : Env) (feed_source : String) (e : Entry) (st : Store) :
    Except String SaveResult :=
  match e.link, e.title with
  | some url, some title =>
    if url = "" || title = "" then
      .ok ⟨st, [s!"Skip entry without url/title from {feed_source}"], [], [], []⟩
    else
      let summary := e.summary
      let published_at := (parse_published e).map isoformat
      match env.checkRaises url with
      | some msg => .error msg
      | none =>
        if existsByUrl st url then
          .ok ⟨st, [], [url], [], []⟩
        else
          let content_text := fetch_article_content (env.net url)
          let content_raw := summary
          let row : Row :=
            ⟨feed_source, url, title, summary, content_raw,
              pyOrStr content_text summary, published_at⟩
          match env.insertRaises url with
          | some msg => .error msg
          | none =>
            let t60 := pyTake title 60
            .ok ⟨⟨st.rows ++ [row]⟩,
              [s!"Inserted: {feed_source} | {t60} ..."],
              [url], [url], [url]⟩
  | _, _ => .ok ⟨st, [s!"Skip entry without url/title from {feed_source}"], [], [], []⟩

/-- One configured feed: a source name and a feed URL. -/
structure Feed where
  source : String
  url : String

/-- The hardcoded `FEEDS` list. -/
def FEEDS : List Feed :=
  [⟨"OpenAI News", "https://openai.com/news/rss.xml"⟩,
   ⟨"Google Blog (all)", "https://blog.google/feed/"⟩,
   ⟨"DeepMind Blog", "https://deepmind.google/discover/blog/feed"⟩,
   ⟨"Google Research Blog", "https://research.google/blog/feed/"⟩,
   ⟨"Zenn LLM", "https://zenn.dev/topics/llm/feed"⟩]

/-- The body of the inner `for entry in entries` loop of `fetch_all`:
`try: save_entry(...) except Exception as e: print(...)`.  On success
the new table and its log are taken; on an exception the table is
unchanged and the error is logged with the offending source, and
iteration continues. -/
def processEntry (env : Env) (source : String) (acc : Store × List String)
    (e : Entry) : Store × List String :=
  match save_entry env source e acc.1 with
  | .ok r => (r.store, acc.2 ++ r.log)
  | .error msg => (acc.1, acc.2 ++ [s!"[ERROR] saving entry from {source}: {msg}"])

/-- The inner loop of `fetch_all` over one source's entries. -/
def processEntries (env : Env) (source : String) (entries : List Entry)
    (acc : Store × List String) : Store × List String :=
  entries.foldl (processEntry env source) acc

/-- One iteration of the outer `for feed in FEEDS` loop: parse the
feed (the reader oracle stands for `feedparser.parse`, which yields
`[]` on failure), print the banner lines, and run the entry loop. -/
def processFeed (env : Env) (reader : String → List Entry)
    (acc : Store × List String) (f : Feed) : Store × List String :=
  let entries := reader f.url
  let n := entries.length
  let src := f.source
  let u := f.url
  processEntries env f.source entries
    (acc.1, acc.2 ++ [s!"=== Fetching: {src} ({u}) ===", s!" -> {n} entries"])

/-- The outer loop of `fetch_all` over a list of feeds. -/
def runFeeds (env : Env) (reader : String → List Entry) (feeds : List Feed)
    (acc : Store × List String) : Store × List String :=
  feeds.foldl (processFeed env reader) acc

/-- `fetch_all()`: traverse the hardcoded `FEEDS` list against an
initial table. -/
def fetch_all (env : Env) (reader : String → List Entry) (st : Store) :
    Store × List String :=
  runFeeds env reader FEEDS (st, [])

/-- Number of stored rows carrying a given URL. -/
def countUrl (st : Store) (url : String) : Nat :=
  (st.rows.filter (fun r => r.url = url)).length

/-- The row `save_entry` inserts for an admitted entry. -/
def insertedRow (env : Env) (src u t : String) (e : Entry) : Row :=
  ⟨src, u, t, e.summary, e.summary,
    pyOrStr (fetch_article_content (env.net u)) e.summary,
    (parse_published e).map isoformat⟩

/-- A string of `n` copies of `a`, for concrete length-gate inputs. -/
def aText (n : Nat) : String := String.mk (List.replicate n 'a')

/-- A page whose only candidate is a class-matched element holding
exactly 200 characters, inside a body that also holds a `tail` text
node. -/
def doc200 : Node :=
  .elem "html" ""
    [.elem "body" "" [.elem "div" "article-box" [.text (aText 200)], .text "tail"]]

/-- A page whose `<article>` element holds 201 characters. -/
def doc201 : Node :=
  .elem "html" ""
    [.elem "body" "" [.elem "article" "" [.text (aText 201)], .text "tail"]]

/-- A page with one short class-matched candidate and no other
visible text at all. -/
def docEmpty : Node :=
  .elem "html" "" [.elem "body" "" [.elem "div" "content-nav" [.text "   "]]]

/-- A page whose only class-matched candidate holds 150 characters,
next to further body text. -/
def doc150 : Node :=
  .elem "html" ""
    [.elem "body" "" [.elem "div" "content-box" [.text (aText 150)], .text "tail"]]

/-- A concrete article URL. -/
def urlA : String := "https://example.test/a"

/-- A concrete well-formed entry: link, title, summary, no timestamps. -/
def entryA : Entry := ⟨some urlA, some "A", some "S", none, none⟩

/-- A concrete entry with only an `updated` timestamp. -/
def entryUpd : Entry := ⟨some urlA, some "A", none, none, some ⟨2024, 1, 1, 0, 0, 0⟩⟩

/-- An environment whose article fetches all succeed with `doc201`
and whose store never raises. -/
def envOk : Env := ⟨fun _ => .success doc201, fun _ => none, fun _ => none⟩

/-- An environment whose article fetches all fail at transport level
and whose store never raises. -/
def envDown : Env := ⟨fun _ => .failure "connection refused", fun _ => none, fun _ => none⟩

/-- An environment whose store insert raises for every URL. -/
def envBoom : Env := ⟨fun _ => .failure "x", fun _ => none, fun _ => some "insert failed"⟩

/-- A store already holding a row for `urlA`. -/
def storeDup : Store := ⟨[⟨"Old", urlA, "Old title", none, none, none, none⟩]⟩

section SaveEntryLemmas

variable (env : Env) (src : String) (e : Entry) (st : Store)

theorem save_entry_skip_eq (h : e.link = none ∨ e.link = some "" ∨ e.title = none ∨ e.title = some "") :
    save_entry env src e st =
      .ok ⟨st, [s!"Skip entry without url/title from {src}"], [], [], []⟩ := by
  rcases he : e.link with _ | u <;> rcases ht : e.title with _ | t <;>
    simp only [save_entry, he, ht]
  rcases h with h | h | h | h <;> simp_all

theorem save_entry_check_error_eq (u t m : String) (hu : e.link = some u)
    (ht : e.title = some t) (hu' : u ≠ "") (ht' : t ≠ "")
    (hc : env.checkRaises u = some m) :
    save_entry env src e st = .error m := by
  simp only [save_entry, hu, ht, hc, hu', ht']
  simp [hu', ht']

theorem save_entry_dup_eq (u t : String) (hu : e.link = some u)
    (ht : e.title = some t) (hu' : u ≠ "") (ht' : t ≠ "")
    (hc : env.checkRaises u = none) (hex : existsByUrl st u = true) :
    save_entry env src e st = .ok ⟨st, [], [u], [], []⟩ := by
  simp only [save_entry, hu, ht, hc, hex]
  simp [hu', ht']

theorem save_entry_insert_error_eq (u t m : String) (hu : e.link = some u)
    (ht : e.title = some t) (hu' : u ≠ "") (ht' : t ≠ "")
    (hc : env.checkRaises u = none) (hex : existsByUrl st u = false)
    (hi : env.insertRaises u = some m) :
    save_entry env src e st = .error m := by
  simp only [save_entry, hu, ht, hc, hex, hi]
  simp [hu', ht']

theorem save_entry_insert_eq (u t : String) (hu : e.link = some u)
    (ht : e.title = some t) (hu' : u ≠ "") (ht' : t ≠ "")
    (hc : env.checkRaises u = none) (hex : existsByUrl st u = false)
    (hi : env.insertRaises u = none) :
    save_entry env src e st =
      .ok ⟨⟨st.rows ++ [insertedRow env src u t e]⟩,
        [s!"Inserted: {src} | {pyTake t 60} ..."], [u], [u], [u]⟩ := by
  simp only [save_entry, hu, ht, hc, hex, hi, insertedRow]
  simp [hu', ht']

end SaveEntryLemmas

theorem save_entry_ok_cases (env : Env) (src : String) (e : Entry) (st : Store)
    (r : SaveResult) (h : save_entry env src e st = .ok r) :
    r.store = st ∨
      ∃ u t, e.link = some u ∧ e.title = some t ∧ u ≠ "" ∧ t ≠ "" ∧
        existsByUrl st u = false ∧ r.store.rows = st.rows ++ [insertedRow env src u t e] := by
  by_cases hlt : e.link = none ∨ e.link = some "" ∨ e.title = none ∨ e.title = some ""
  · left
    rw [save_entry_skip_eq env src e st hlt] at h
    cases h
    rfl
  · push_neg at hlt
    obtain ⟨h1, h2, h3, h4⟩ := hlt
    rcases he : e.link with _ | u
    · exact absurd he h1
    rcases ht : e.title with _ | t
    · exact absurd ht h3
    have hu' : u ≠ "" := fun hh => h2 (by rw [he, hh])
    have ht' : t ≠ "" := fun hh => h4 (by rw [ht, hh])
    rcases hc : env.checkRaises u with _ | m
    · rcases hex : existsByUrl st u with _ | _
      · rcases hi : env.insertRaises u with _ | m
        · rw [save_entry_insert_eq env src e st u t he ht hu' ht' hc hex hi] at h
          cases h
          exact Or.inr ⟨u, t, rfl, rfl, hu', ht', hex, rfl⟩
        · rw [save_entry_insert_error_eq env src e st u t m he ht hu' ht' hc hex hi] at h
          cases h
      · left
        rw [save_entry_dup_eq env src e st u t he ht hu' ht' hc hex] at h
        cases h
        rfl
    · rw [save_entry_check_error_eq env src e st u t m he ht hu' ht' hc] at h
      cases h

theorem find_first_of_prefix_false {α : Type} (p : α → Bool) (pre : List α) (c : α)
    (post : List α) (hpre : ∀ x ∈ pre, p x = false) (hc : p c = true) :
    (pre ++ c :: post).find? p = some c := by
  induction pre with
  | nil => simp [List.find?_cons, hc]
  | cons a as ih =>
    have ha : p a = false := hpre a (List.mem_cons_self a as)
    simp only [List.cons_append, List.find?_cons, ha]
    exact ih (fun x hx => hpre x (List.mem_cons_of_mem a hx))

theorem countUrl_append_ne (st : Store) (u : String) (row : Row) (h : row.url ≠ u) :
    countUrl ⟨st.rows ++ [row]⟩ u = countUrl st u := by
  simp [countUrl, List.filter_append, h]

theorem countUrl_append_eq (st : Store) (u : String) (row : Row) (h : row.url = u) :
    countUrl ⟨st.rows ++ [row]⟩ u = countUrl st u + 1 := by
  simp [countUrl, List.filter_append, h]

theorem existsByUrl_false_of_countUrl_zero (st : Store) (u : String)
    (h : countUrl st u = 0) : existsByUrl st u = false := by
  simp only [countUrl, List.length_eq_zero, List.filter_eq_nil_iff] at h
  simp only [existsByUrl, List.any_eq_false]
  intro r hr
  simpa using h r hr

theorem countUrl_pos_of_existsByUrl (st : Store) (u : String)
    (h : existsByUrl st u = true) : 0 < countUrl st u := by
  simp only [existsByUrl, List.any_eq_true] at h
  obtain ⟨r, hr, hru⟩ := h
  have hmem : r ∈ st.rows.filter (fun r => r.url = u) := by
    simp only [List.mem_filter]
    exact ⟨hr, by simpa using hru⟩
  have hne : st.rows.filter (fun r => r.url = u) ≠ [] := by
    intro hnil
    rw [hnil] at hmem
    exact absurd hmem (List.not_mem_nil r)
  simpa [countUrl] using List.length_pos.mpr hne

theorem fetch_some_ne_empty (o : FetchOutcome) (s : String)
    (h : fetch_article_content o = some s) : s ≠ "" := by
  cases o with
  | failure r => simp [fetch_article_content] at h
  | success doc =>
    simp only [fetch_article_content] at h
    rcases hfind : (candidates (decompose doc)).find? acceptsCandidate with _ | c
    · rw [hfind] at h
      split_ifs at h with hemp
      cases h
      exact hemp

    · rw [hfind] at h
      cases h
      have hacc := List.find?_some hfind
      simp only [acceptsCandidate, Bool.and_eq_true, decide_eq_true_eq] at hacc
      simpa using hacc.1

theorem countUrl_eq_zero_of_not_exists (st : Store) (u : String)
    (h : existsByUrl st u = false) : countUrl st u = 0 := by
  simp only [existsByUrl, List.any_eq_false] at h
  simp only [countUrl, List.length_eq_zero, List.filter_eq_nil_iff]
  intro r hr
  simpa using h r hr

theorem existsByUrl_append_self (st : Store) (u : String) (row : Row)
    (h : row.url = u) : existsByUrl ⟨st.rows ++ [row]⟩ u = true := by
  simp [existsByUrl, h]

/-- C8: for every URL, on any transport-level failure of the article
fetch (timeout, connection error, or a non-2xx status raised by
`raise_for_status` — whatever the `except` clause catches), the
Content Extractor `fetch_article_content` returns absent (`None`)
rather than raising, so a fetch failure is recoverable and never
fatal to the run. -/
theorem c8_transport_failure_returns_absent (reason : String) :
    fetch_article_content (.failure reason) = none := rfl

/-- C6: `parse_published` prefers the `published` timestamp field;
when it is absent the `updated` field is used; when both are absent
the result is `None`; a present field's six components are read as a
UTC instant (the `UTCDateTime` image), so an entry with only an
`updated` timestamp yields exactly that timestamp in UTC. -/
theorem c6_timestamp_fallback (e : Entry) :
    (∀ s, e.published_parsed = some s →
      parse_published e = some ⟨s.year, s.month, s.day, s.hour, s.minute, s.second⟩) ∧
    (e.published_parsed = none → ∀ s, e.updated_parsed = some s →
      parse_published e = some ⟨s.year, s.month, s.day, s.hour, s.minute, s.second⟩) ∧
    (e.published_parsed = none → e.updated_parsed = none → parse_published e = none) := by
  refine ⟨?_, ?_, ?_⟩
  · intro s hs
    simp [parse_published, hs, Option.orElse]
  · intro hp s hs
    simp [parse_published, hp, hs, Option.orElse]
  · intro hp hu
    simp [parse_published, hp, hu, Option.orElse]

/-- C6 witness: the entry with only an `updated` timestamp of
2024-01-01T00:00:00 parses to exactly that UTC instant. -/
theorem c6_timestamp_fallback_witness :
    parse_published entryUpd = some ⟨2024, 1, 1, 0, 0, 0⟩ :=
  (c6_timestamp_fallback entryUpd).2.1 rfl ⟨2024, 1, 1, 0, 0, 0⟩ rfl

/-- C9: when no candidate element qualifies under the length gate,
the extractor falls back to the visible text of `soup.body or soup`;
an empty fallback text yields absent (`None`), never the empty
string. -/
theorem c9_body_fallback (doc : Node)
    (h : ∀ c ∈ candidates (decompose doc), acceptsCandidate c = false) :
    (getText ((findTag "body" (decompose doc)).getD (decompose doc)) = "" →
      fetch_article_content (.success doc) = none) ∧
    (getText ((findTag "body" (decompose doc)).getD (decompose doc)) ≠ "" →
      fetch_article_content (.success doc) =
        some (getText ((findTag "body" (decompose doc)).getD (decompose doc)))) := by
  have hfind : (candidates (decompose doc)).find? acceptsCandidate = none :=
    List.find?_eq_none.mpr (fun c hc => by simp [h c hc])
  constructor
  · intro hemp
    simp [fetch_article_content, hfind, hemp]
  · intro hne
    simp [fetch_article_content, hfind, hne]

/-- C9 witness: on the page whose only candidate is short and whose
body text strips to nothing, the extractor returns absent. -/
theorem c9_body_fallback_witness :
    fetch_article_content (.success docEmpty) = none :=
  (c9_body_fallback docEmpty (by decide)).1 (by decide)

/-- C5 counterexample: on `doc200` the only candidate is the
class-matched element whose text is exactly 200 characters; the claim
says a candidate yielding at least 200 characters is accepted as the
body text, but the code requires strictly more than 200, so the
extractor instead falls through to the full-body text (which here has
a `tail` line appended) and does not return the candidate's text. -/
theorem c5_length_gate_cex :
    (candidates (decompose doc200)).map getText = [aText 200] ∧
    pyLen (aText 200) = 200 ∧
    fetch_article_content (.success doc200) = some (aText 200 ++ "\ntail") ∧
    fetch_article_content (.success doc200) ≠ some (aText 200) := by decide

/-- C5 (amended): the candidates are tried in priority order and the
first candidate whose extracted text is nonempty and strictly longer
than 200 characters is accepted; a candidate of at most 200
characters (in particular one of 150) is never accepted, so a page
whose only candidate is that short falls through to the full-body
extraction. -/
theorem c5_first_long_candidate_accepted :
    (∀ c, acceptsCandidate c = true ↔ (getText c ≠ "" ∧ pyLen (getText c) > 200)) ∧
    (∀ c, pyLen (getText c) ≤ 200 → acceptsCandidate c = false) ∧
    (∀ doc pre c post,
      candidates (decompose doc) = pre ++ c :: post →
      (∀ c' ∈ pre, acceptsCandidate c' = false) →
      acceptsCandidate c = true →
      fetch_article_content (.success doc) = some (getText c)) := by
  refine ⟨?_, ?_, ?_⟩
  · intro c
    simp [acceptsCandidate]
  · intro c hc
    simp only [acceptsCandidate, Bool.and_eq_false_iff]
    right
    simpa using Nat.not_lt.mpr hc
  · intro doc pre c post hcs hpre hacc
    simp only [fetch_article_content]
    rw [hcs, find_first_of_prefix_false acceptsCandidate pre c post hpre hacc]

/-- C5 witness: on `doc201` the single candidate (its `<article>`
element) carries 201 characters and is accepted as the body text. -/
theorem c5_first_long_candidate_accepted_witness :
    fetch_article_content (.success doc201) =
      some (getText (Node.elem "article" "" [Node.text (aText 201)])) :=
  c5_first_long_candidate_accepted.2.2 doc201 []
    (Node.elem "article" "" [Node.text (aText 201)]) [] rfl (by simp) (by decide)

/-- C1 counterexample: the fetch for `entryA` succeeds with 201
characters of extracted text, yet the persisted row's `content_raw`
is the feed summary `"S"`, not that extracted text (which lands in
`content_text`); the claim that `content_raw` is the extracted text
when the extractor succeeds is therefore false. -/
theorem c1_content_raw_cex :
    fetch_article_content (envOk.net urlA) = some (aText 201) ∧
    save_entry envOk "Test Feed" entryA ⟨[]⟩ =
      .ok ⟨⟨[⟨"Test Feed", urlA, "A", some "S", some "S", some (aText 201), none⟩]⟩,
        ["Inserted: Test Feed | A ..."], [urlA], [urlA], [urlA]⟩ ∧
    (some "S" : Option String) ≠ some (aText 201) := by decide

/-- C1 (amended): for an admitted entry the persisted row's
`content_raw` equals the feed summary (possibly null); the extracted
body text is persisted in `content_text` instead — when the Content
Extractor succeeds `content_text` is the extracted text, and when it
returns absent `content_text` falls back to the summary (which may
itself be null). -/
theorem c1_content_fallback_amended (env : Env) (src : String) (e : Entry)
    (st : Store) (u t : String) (hu : e.link = some u) (ht : e.title = some t)
    (hu' : u ≠ "") (ht' : t ≠ "") (hc : env.checkRaises u = none)
    (hex : existsByUrl st u = false) (hi : env.insertRaises u = none) :
    ∃ r, save_entry env src e st = .ok r ∧
      r.store.rows = st.rows ++ [insertedRow env src u t e] ∧
      (insertedRow env src u t e).content_raw = e.summary ∧
      (fetch_article_content (env.net u) = none →
        (insertedRow env src u t e).content_text = e.summary) ∧
      (∀ txt, fetch_article_content (env.net u) = some txt →
        (insertedRow env src u t e).content_text = some txt) := by
  refine ⟨_, save_entry_insert_eq env src e st u t hu ht hu' ht' hc hex hi, rfl, rfl, ?_, ?_⟩
  · intro hf
    simp [insertedRow, hf, pyOrStr]
  · intro txt hf
    simp [insertedRow, hf, pyOrStr, fetch_some_ne_empty _ _ hf]

/-- C1 witness: with the network down, the inserted row for `entryA`
carries the summary in both `content_raw` and `content_text`. -/
theorem c1_content_fallback_amended_witness :
    ∃ r, save_entry envDown "Test Feed" entryA ⟨[]⟩ = .ok r ∧
      r.store.rows = [] ++ [insertedRow envDown "Test Feed" urlA "A" entryA] ∧
      (insertedRow envDown "Test Feed" urlA "A" entryA).content_raw = entryA.summary ∧
      (fetch_article_content (envDown.net urlA) = none →
        (insertedRow envDown "Test Feed" urlA "A" entryA).content_text = entryA.summary) ∧
      (∀ txt, fetch_article_content (envDown.net urlA) = some txt →
        (insertedRow envDown "Test Feed" urlA "A" entryA).content_text = some txt) :=
  c1_content_fallback_amended envDown "Test Feed" entryA ⟨[]⟩ urlA "A"
    rfl rfl (by decide) (by decide) rfl (by decide) rfl

/-- C10: in every row `save_entry` persists, `content_raw` is set to
the feed-provided summary unconditionally — whatever the extraction
outcome — and the extracted body text goes to the separate
`content_text` field, computed as the Python truthiness fallback
`content_text or summary`. -/
theorem c10_content_text_field (env : Env) (src : String) (e : Entry)
    (st : Store) (u t : String) (hu : e.link = some u) (ht : e.title = some t)
    (hu' : u ≠ "") (ht' : t ≠ "") (hc : env.checkRaises u = none)
    (hex : existsByUrl st u = false) (hi : env.insertRaises u = none) :
    ∃ r, save_entry env src e st = .ok r ∧
      r.store.rows = st.rows ++ [insertedRow env src u t e] ∧
      (insertedRow env src u t e).content_raw = e.summary ∧
      (insertedRow env src u t e).content_text =
        pyOrStr (fetch_article_content (env.net u)) e.summary :=
  ⟨_, save_entry_insert_eq env src e st u t hu ht hu' ht' hc hex hi, rfl, rfl, rfl⟩

/-- C10 witness: with a successful 201-character extraction, the row
for `entryA` keeps the summary in `content_raw` while `content_text`
is the extracted text. -/
theorem c10_content_text_field_witness :
    (∃ r, save_entry envOk "Test Feed" entryA ⟨[]⟩ = .ok r ∧
      r.store.rows = [] ++ [insertedRow envOk "Test Feed" urlA "A" entryA] ∧
      (insertedRow envOk "Test Feed" urlA "A" entryA).content_raw = entryA.summary ∧
      (insertedRow envOk "Test Feed" urlA "A" entryA).content_text =
        pyOrStr (fetch_article_content (envOk.net urlA)) entryA.summary) ∧
    (insertedRow envOk "Test Feed" urlA "A" entryA).content_text = some (aText 201) :=
  ⟨c10_content_text_field envOk "Test Feed" entryA ⟨[]⟩ urlA "A"
    rfl rfl (by decide) (by decide) rfl (by decide) rfl, by decide⟩

/-- C7: an entry with a missing or empty link or title is rejected
before any store interaction: `save_entry` returns successfully with
the table unchanged, exactly the skip diagnostic printed, and empty
checked/fetched/inserted traces; moreover `save_entry` preserves the
invariant that no persisted row has an empty url or title. -/
theorem c7_required_field_rejection :
    (∀ env src (e : Entry) st,
      (e.link = none ∨ e.link = some "" ∨ e.title = none ∨ e.title = some "") →
      save_entry env src e st =
        .ok ⟨st, [s!"Skip entry without url/title from {src}"], [], [], []⟩) ∧
    (∀ env src e st r, save_entry env src e st = .ok r →
      (∀ row ∈ st.rows, row.url ≠ "" ∧ row.title ≠ "") →
      ∀ row ∈ r.store.rows, row.url ≠ "" ∧ row.title ≠ "") := by
  constructor
  · exact fun env src e st h => save_entry_skip_eq env src e st h
  · intro env src e st r h hinv row hrow
    rcases save_entry_ok_cases env src e st r h with hsame | ⟨u, t, hu, ht, hu', ht', hex, hrows⟩
    · rw [hsame] at hrow
      exact hinv row hrow
    · rw [hrows] at hrow
      rcases List.mem_append.mp hrow with hl | hr
      · exact hinv row hl
      · have hrw : row = insertedRow env src u t e := by simpa using hr
        rw [hrw]
        exact ⟨by simpa [insertedRow] using hu', by simpa [insertedRow] using ht'⟩

/-- C7 witness: an entry with no link is skipped with the diagnostic
and an unchanged empty table. -/
theorem c7_required_field_rejection_witness :
    save_entry envOk "Test Feed" ⟨none, some "A", some "S", none, none⟩ ⟨[]⟩ =
      .ok ⟨⟨[]⟩, ["Skip entry without url/title from Test Feed"], [], [], []⟩ :=
  c7_required_field_rejection.1 envOk "Test Feed"
    ⟨none, some "A", some "S", none, none⟩ ⟨[]⟩ (Or.inl rfl)

/-- C4 counterexample: `entryA` has a present link and title and its
URL is already stored, and `save_entry` consults the Dedup Gate (the
checked trace holds the URL) while the Content Extractor is never
invoked (the fetched trace is empty); so normalization — which the
claim says includes invoking the extractor — does not complete before
the gate is consulted. -/
theorem c4_stage_order_cex :
    entryA.link = some urlA ∧ entryA.title = some "A" ∧
    save_entry envOk "Test Feed" entryA storeDup =
      .ok ⟨storeDup, [], [urlA], [], []⟩ := by decide

/-- C4 (amended): required-field validation and timestamp parsing run
first; entries they reject never reach the gate (empty checked
trace); for admitted fields the Dedup Gate is consulted next, and
only entries the gate admits reach the Content Extractor: a
gate-rejected entry is skipped silently — nothing persisted, nothing
logged, nothing fetched — while an admitted entry is fetched and
persisted. -/
theorem c4_stage_order_amended :
    (∀ env src (e : Entry) st,
      (e.link = none ∨ e.link = some "" ∨ e.title = none ∨ e.title = some "") →
      ∃ r, save_entry env src e st = .ok r ∧
        r.checked = [] ∧ r.fetched = [] ∧ r.store = st) ∧
    (∀ env src (e : Entry) st u t, e.link = some u → e.title = some t →
      u ≠ "" → t ≠ "" → env.checkRaises u = none →
      (existsByUrl st u = true →
        save_entry env src e st = .ok ⟨st, [], [u], [], []⟩) ∧
      (existsByUrl st u = false → env.insertRaises u = none →
        save_entry env src e st =
          .ok ⟨⟨st.rows ++ [insertedRow env src u t e]⟩,
            [s!"Inserted: {src} | {pyTake t 60} ..."], [u], [u], [u]⟩)) := by
  constructor
  · intro env src e st h
    exact ⟨_, save_entry_skip_eq env src e st h, rfl, rfl, rfl⟩
  · intro env src e st u t hu ht hu' ht' hc
    constructor
    · intro hex
      exact save_entry_dup_eq env src e st u t hu ht hu' ht' hc hex
    · intro hex hi
      exact save_entry_insert_eq env src e st u t hu ht hu' ht' hc hex hi

/-- C4 witness: from an empty table, the admitted `entryA` is
existence-checked, fetched and inserted, each trace holding its URL
once. -/
theorem c4_stage_order_amended_witness :
    save_entry envDown "Test Feed" entryA ⟨[]⟩ =
      .ok ⟨⟨[] ++ [insertedRow envDown "Test Feed" urlA "A" entryA]⟩,
        ["Inserted: Test Feed | A ..."], [urlA], [urlA], [urlA]⟩ :=
  (c4_stage_order_amended.2 envDown "Test Feed" entryA ⟨[]⟩ urlA "A"
    rfl rfl (by decide) (by decide) rfl).2 (by decide) rfl

/-- C3: the Dedup Gate keeps at most one row per URL: an entry whose
URL already exists is skipped without inserting (table unchanged,
empty inserted trace); `save_entry` preserves the at-most-one-row-per-
URL invariant; and ingesting the same entry across two sequential
runs from a table with no row for that URL yields exactly one
persisted row for it, the second run changing nothing. -/
theorem c3_dedup_idempotent :
    (∀ env src (e : Entry) st u, e.link = some u → existsByUrl st u = true →
      env.checkRaises u = none →
      ∃ r, save_entry env src e st = .ok r ∧ r.store = st ∧ r.inserted = []) ∧
    (∀ env src e st r u, save_entry env src e st = .ok r →
      countUrl st u ≤ 1 → countUrl r.store u ≤ 1) ∧
    (∀ env src (e : Entry) st u t, e.link = some u → e.title = some t →
      u ≠ "" → t ≠ "" → env.checkRaises u = none → env.insertRaises u = none →
      countUrl st u = 0 →
      ∃ r1 r2, save_entry env src e st = .ok r1 ∧
        save_entry env src e r1.store = .ok r2 ∧
        r2.store = r1.store ∧ countUrl r1.store u = 1) := by
  refine ⟨?_, ?_, ?_⟩
  · intro env src e st u hu hex hc
    by_cases hlt : e.link = none ∨ e.link = some "" ∨ e.title = none ∨ e.title = some ""
    · exact ⟨_, save_entry_skip_eq env src e st hlt, rfl, rfl⟩
    · push_neg at hlt
      obtain ⟨h1, h2, h3, h4⟩ := hlt
      rcases ht : e.title with _ | t
      · exact absurd ht h3
      have hu' : u ≠ "" := fun hh => h2 (by rw [hu, hh])
      have ht' : t ≠ "" := fun hh => h4 (by rw [ht, hh])
      exact ⟨_, save_entry_dup_eq env src e st u t hu ht hu' ht' hc hex, rfl, rfl⟩
  · intro env src e st r u h hle
    rcases save_entry_ok_cases env src e st r h with hsame | ⟨u0, t, hu, ht, hu', ht', hex, hrows⟩
    · rw [hsame]
      exact hle
    · rw [show r.store = (⟨r.store.rows⟩ : Store) from rfl, hrows]
      by_cases heq : u0 = u
      · subst heq
        rw [countUrl_append_eq st u0 _ rfl, countUrl_eq_zero_of_not_exists st u0 hex]
      · rw [countUrl_append_ne st u _ (by simpa [insertedRow] using heq)]
        exact hle
  · intro env src e st u t hu ht hu' ht' hc hi h0
    have hex : existsByUrl st u = false := existsByUrl_false_of_countUrl_zero st u h0
    have h1 := save_entry_insert_eq env src e st u t hu ht hu' ht' hc hex hi
    have hurl : (insertedRow env src u t e).url = u := rfl
    have hex2 : existsByUrl (⟨st.rows ++ [insertedRow env src u t e]⟩ : Store) u = true :=
      existsByUrl_append_self st u _ hurl
    have h2 := save_entry_dup_eq env src e ⟨st.rows ++ [insertedRow env src u t e]⟩
      u t hu ht hu' ht' hc hex2
    refine ⟨⟨⟨st.rows ++ [insertedRow env src u t e]⟩,
        [s!"Inserted: {src} | {pyTake t 60} ..."], [u], [u], [u]⟩,
      ⟨⟨st.rows ++ [insertedRow env src u t e]⟩, [], [u], [], []⟩, h1, h2, rfl, ?_⟩
    rw [countUrl_append_eq st u _ hurl, h0]

/-- C3 witness: running `save_entry` twice on `entryA` from an empty
table inserts its row once, the second run leaving the table as it
was, with exactly one row for its URL. -/
theorem c3_dedup_idempotent_witness :
    ∃ r1 r2, save_entry envDown "Test Feed" entryA ⟨[]⟩ = .ok r1 ∧
      save_entry envDown "Test Feed" entryA r1.store = .ok r2 ∧
      r2.store = r1.store ∧ countUrl r1.store urlA = 1 :=
  c3_dedup_idempotent.2.2 envDown "Test Feed" entryA ⟨[]⟩ urlA "A"
    rfl rfl (by decide) (by decide) rfl rfl (by decide)

/-- C2: any exception a single entry raises inside `save_entry`
(store failure on the existence check or the insert included) is
caught by the per-entry loop body, which logs it with the offending
source and error and leaves the table unchanged; the entry loop then
continues with the remaining entries, and the feed loop with the
remaining sources — the folds decompose so that neither an entry nor
a source is dropped after a failure. -/
theorem c2_per_entry_isolation :
    (∀ env src (acc : Store × List String) e m,
      save_entry env src e acc.1 = .error m →
      processEntry env src acc e =
        (acc.1, acc.2 ++ [s!"[ERROR] saving entry from {src}: {m}"])) ∧
    (∀ env src pre e post (acc : Store × List String),
      processEntries env src (pre ++ e :: post) acc =
        processEntries env src post
          (processEntry env src (processEntries env src pre acc) e)) ∧
    (∀ env reader f fs (acc : Store × List String),
      runFeeds env reader (f :: fs) acc =
        runFeeds env reader fs (processFeed env reader acc f)) := by
  refine ⟨?_, ?_, ?_⟩
  · intro env src acc e m h
    simp [processEntry, h]
  · intro env src pre e post acc
    simp [processEntries, List.foldl_append]
  · intro env reader f fs acc
    rfl

/-- C2 witness: with an insert that raises, the loop body logs the
error for the source and keeps the empty table. -/
theorem c2_per_entry_isolation_witness :
    processEntry envBoom "Test Feed" (⟨[]⟩, []) entryA =
      (⟨[]⟩, ["[ERROR] saving entry from Test Feed: insert failed"]) :=
  c2_per_entry_isolation.1 envBoom "Test Feed" (⟨[]⟩, []) entryA
    "insert failed" (by decide)

end AiNews
